import Mathlib

/-!
Verification of the process singleton coordinator (`ServerManager.js`,
package `neo-one-server-client`).

The coordinator is embedded shallowly:

* JavaScript numbers returned by `parseInt` are modelled by `JsNum`
  (either `NaN` or an exact integer).
* The lock-file read is modelled by `ReadResult`: the file's textual
  content, a file-not-found error (`ENOENT`), or another filesystem
  error carrying its message.
* Every external side effect (a `getVersion` network query, a
  `killProcess` call, a lock-file removal, a lock-file write, the
  `onStart` callback, a `spawn`, a reachability probe) is recorded as an
  event `Ev`; each operation returns its result together with the list
  of events it emitted, in order.
* The 5-second version-query budget and the 30-second reachability
  budget are abstracted as the finite list of attempts that the
  environment answers before the corresponding deadline: `queries` is
  the sequence of `getVersion` outcomes available inside the 5-second
  window, `probes` the sequence of probe outcomes inside the 30-second
  window.  The 100ms backoff sleeps only affect timing and have no
  observable effect in this model.
-/

namespace ServerManager

/-- A JavaScript number as produced by `parseInt(s, 10)`: either `NaN`
or an exact integer. -/
inductive JsNum where
  | nan
  | int (n : Int)
deriving Repr, DecidableEq

/-- The JavaScript whitespace characters relevant to `parseInt`'s
leading-whitespace skip (the common subset; the full set is larger but
agrees on all inputs considered here). -/
def isJsSpace (c : Char) : Bool :=
  c == ' ' || c == '\t' || c == '\n' || c == '\r'

/-- Numeric value of a list of decimal digit characters. -/
def digitsVal (ds : List Char) : Nat :=
  ds.foldl (fun acc c => acc * 10 + (c.toNat - '0'.toNat)) 0

/-- Helper for `parseIntJS`: after the optional sign, take the maximal
run of decimal digits; no digits at all means `NaN`. -/
def parseDigits (cs : List Char) (neg : Bool) : JsNum :=
  let ds := cs.takeWhile Char.isDigit
  if ds.isEmpty then JsNum.nan
  else JsNum.int (if neg then -(digitsVal ds : Int) else (digitsVal ds : Int))

/-- JavaScript `parseInt(s, 10)`: skip leading whitespace, read an
optional sign, then the maximal decimal-digit run; `NaN` when no digit
is found.  `parseInt` never throws. -/
def parseIntJS (s : String) : JsNum :=
  match s.toList.dropWhile isJsSpace with
  | '-' :: rest => parseDigits rest true
  | '+' :: rest => parseDigits rest false
  | cs => parseDigits cs false

/-- Outcome of reading the lock file at `pidPath`. -/
inductive ReadResult where
  | content (s : String)
  | enoent
  | otherError (e : String)
deriving Repr, DecidableEq

/-- Outcome the environment gives to one `client.getVersion()` call. -/
inductive QueryResult where
  | ok (version : String)
  | err (e : String)
deriving Repr, DecidableEq

/-- Outcome the environment gives to one reachability probe
(`client.wait(1000)`). -/
inductive ProbeResult where
  | ok
  | err (e : String)
deriving Repr, DecidableEq

/-- An observable external effect of the coordinator. -/
inductive Ev where
  | query
  | kill (pid : JsNum)
  | removeLock
  | writeLock (content : String)
  | onStart
  | spawn (cmd : String) (args : List String) (detached : Bool)
  | probe
deriving Repr, DecidableEq

/-- `ServerManager.getServerPID`: read the lock file; `ENOENT` yields
`null`; every other read error propagates.  On success the content is
passed to `parseInt(pidContents, 10)`.  Since `parseInt` never throws,
the source's `catch` branch (which would remove the file and return
`null`) is unreachable and the parse result — possibly `NaN` — is
returned as is, with the file left in place. -/
def getServerPID : ReadResult → Except String (Option JsNum) × List Ev
  | ReadResult.content s => (Except.ok (some (parseIntJS s)), [])
  | ReadResult.enoent => (Except.ok none, [])
  | ReadResult.otherError e => (Except.error e, [])

/-- JavaScript strict equality `pid === process.pid` between a parse
result and the current process identifier: `NaN` is equal to nothing. -/
def jsStrictEqNum : JsNum → Int → Bool
  | JsNum.nan, _ => false
  | JsNum.int n, m => n == m

/-- The `is-running` package applied to a parse result: for `NaN`,
`process.kill(NaN, 0)` throws a non-`EPERM` error, so it reports
`false`; for an integer it consults the OS process table `alive`. -/
def isRunningJs (alive : Int → Bool) : JsNum → Bool
  | JsNum.nan => false
  | JsNum.int n => alive n

/-- `isSameVersion`: issue `getVersion` queries while the 5-second
budget lasts; the first successful response decides (`true` exactly
when it equals the expected version); failures are swallowed and
retried; an exhausted budget yields `false`.  Returns the decision
together with the number of queries issued. -/
def isSameVersion (expected : String) : List QueryResult → Bool × Nat
  | [] => (false, 0)
  | QueryResult.ok v :: _ => (v == expected, 1)
  | QueryResult.err _ :: rest =>
      let r := isSameVersion expected rest
      (r.1, r.2 + 1)

/-- Environment of one `checkAlive` call: the calling process's own
identifier, the lock-file read outcome, the OS process table, the
coordinator's expected server version, and the `getVersion` outcomes
available within the 5-second budget. -/
structure CAEnv where
  selfPid : Int
  readRes : ReadResult
  alive : Int → Bool
  serverVersion : String
  queries : List QueryResult

/-- `ServerManager.checkAlive`: read the persisted owner; return it
immediately when it is the calling process itself; otherwise, when it
exists and is alive, confirm the version within the 5-second budget —
confirmed owners are returned untouched, unconfirmed ones are killed;
every path not ending in a confirmed owner removes the lock file and
reports no owner.  A lock-file read error propagates. -/
def checkAlive (env : CAEnv) : Except String (Option JsNum) × List Ev :=
  match getServerPID env.readRes with
  | (Except.error e, tr) => (Except.error e, tr)
  | (Except.ok none, tr) => (Except.ok none, tr)
  | (Except.ok (some pid), tr) =>
    if jsStrictEqNum pid env.selfPid then (Except.ok (some pid), tr)
    else if isRunningJs env.alive pid then
      let r := isSameVersion env.serverVersion env.queries
      let qtr := List.replicate r.2 Ev.query
      if r.1 then (Except.ok (some pid), tr ++ qtr)
      else (Except.ok none, tr ++ qtr ++ [Ev.kill pid, Ev.removeLock])
    else (Except.ok none, tr ++ [Ev.removeLock])

/-- `ServerManager.kill`: with no supplied identifier, resolve it from
the lock file; with nothing resolvable this is a no-op; otherwise
delegate to `killProcess`.  The lock file is not removed here. -/
def killOp (readRes : ReadResult) : Option JsNum → Except String Unit × List Ev
  | some pid => (Except.ok (), [Ev.kill pid])
  | none =>
    match getServerPID readRes with
    | (Except.error e, tr) => (Except.error e, tr)
    | (Except.ok none, tr) => (Except.ok (), tr)
    | (Except.ok (some pid), tr) => (Except.ok (), tr ++ [Ev.kill pid])

/-- `waitReachable` inner loop: each iteration issues one probe; a
success returns at once; an error is remembered as `lastError` and
retried after a 100ms sleep; when the 30-second budget (the end of the
probe list) is reached, the last observed error, if any, is thrown. -/
def waitReachableGo (lastError : Option String) :
    List ProbeResult → Except String Unit × List Ev
  | [] =>
    (match lastError with
     | none => Except.ok ()
     | some e => Except.error e, [])
  | ProbeResult.ok :: _ => (Except.ok (), [Ev.probe])
  | ProbeResult.err e :: rest =>
      let r := waitReachableGo (some e) rest
      (r.1, Ev.probe :: r.2)

/-- `waitReachable`: poll the reachability probe for up to 30 seconds,
swallowing and retrying errors, and propagate the last observed error
when the budget is exhausted. -/
def waitReachable (probes : List ProbeResult) : Except String Unit × List Ev :=
  waitReachableGo none probes

/-- The executable descriptor handed to the launcher. -/
structure Binary where
  cmd : String
  firstArgs : List String

/-- Result of `ServerManager.start`. -/
structure StartResult where
  pid : JsNum
  started : Bool
deriving Repr, DecidableEq

/-- `ServerManager.start`: when `checkAlive` reports an owner, return it
with `started := false` and spawn nothing.  Otherwise invoke the
optional `onStart` callback, spawn the binary detached with
`start server` appended to its arguments, wait for OS-level liveness
(`waitRunning` polls the liveness oracle and proceeds regardless, with
no observable effect in this model), then wait for reachability; on
success return the child's identifier with `started := true`.  The lock
file is never written here. -/
def start (env : CAEnv) (binary : Binary) (hasOnStart : Bool)
    (spawnPid : Int) (probes : List ProbeResult) :
    Except String StartResult × List Ev :=
  match checkAlive env with
  | (Except.error e, tr) => (Except.error e, tr)
  | (Except.ok (some pid), tr) => (Except.ok ⟨pid, false⟩, tr)
  | (Except.ok none, tr) =>
    let tr1 := tr ++ (if hasOnStart then [Ev.onStart] else [])
    let tr2 := tr1 ++
      [Ev.spawn binary.cmd (binary.firstArgs ++ ["start", "server"]) true]
    match waitReachable probes with
    | (Except.error e, ptr) => (Except.error e, tr2 ++ ptr)
    | (Except.ok (), ptr) => (Except.ok ⟨JsNum.int spawnPid, true⟩, tr2 ++ ptr)

/-- `ServerManager.writePID`: ensure the data directory exists and
persist the identifier as text, overwriting any prior value. -/
def writePID (pid : Int) : List Ev := [Ev.writeLock (toString pid)]

/-- Name of the lock file inside the data directory. -/
def SERVER_PID : String := "server.pid"

/-- Recognizer for `getVersion` / `kill` / `removeLock` events — the
only events `checkAlive` can emit. -/
def Ev.isCheckAliveEv : Ev → Bool
  | Ev.query => true
  | Ev.kill _ => true
  | Ev.removeLock => true
  | _ => false

/-- Recognizer for lock-file write events. -/
def Ev.isWriteLock : Ev → Bool
  | Ev.writeLock _ => true
  | _ => false

/-- Recognizer for spawn events. -/
def Ev.isSpawn : Ev → Bool
  | Ev.spawn _ _ _ => true
  | _ => false

/-- Recognizer for `onStart` events. -/
def Ev.isOnStart : Ev → Bool
  | Ev.onStart => true
  | _ => false

/-- Recognizer for failed version queries. -/
def QueryResult.isErr : QueryResult → Bool
  | QueryResult.err _ => true
  | QueryResult.ok _ => false

/-- Recognizer for failed probes. -/
def ProbeResult.isErr : ProbeResult → Bool
  | ProbeResult.err _ => true
  | ProbeResult.ok => false

/-- Recognizer for query outcomes that do not confirm the expected
version: failures, and successes carrying a different version. -/
def notConfirming (expected : String) : QueryResult → Bool
  | QueryResult.ok v => !(v == expected)
  | QueryResult.err _ => true

/-- Bool test that a string does not begin with a decimal digit. -/
def headNotDigit (t : String) : Bool :=
  match t.toList with
  | [] => true
  | c :: _ => !c.isDigit

/-- Helper: a query list consisting of failures followed by a success
carrying the expected version decides `true` after exactly one query
per failure plus the deciding one. -/
theorem isSameVersion_errs_then_ok (expected : String)
    (es rest : List QueryResult)
    (h : es.all QueryResult.isErr = true) :
    isSameVersion expected (es ++ QueryResult.ok expected :: rest) =
      (true, es.length + 1) := by
  induction es with
  | nil => simp [isSameVersion]
  | cons q es ih =>
    cases q with
    | ok v => simp [QueryResult.isErr] at h
    | err e =>
      simp only [List.all_cons, Bool.and_eq_true] at h
      simp [isSameVersion, ih h.2]

/-- Helper: when every available query outcome fails or reports a
different version, the budget is exhausted without confirmation. -/
theorem isSameVersion_never_confirmed (expected : String)
    (qs : List QueryResult)
    (h : qs.all (notConfirming expected) = true) :
    (isSameVersion expected qs).1 = false := by
  induction qs with
  | nil => simp [isSameVersion]
  | cons q qs ih =>
    simp only [List.all_cons, Bool.and_eq_true] at h
    cases q with
    | ok v =>
      simp only [notConfirming, Bool.not_eq_true'] at h
      simp [isSameVersion, h.1]
    | err e => simp [isSameVersion, ih h.2]

/-- CLAIM C1 (code bug evidence): on lock-file content `"abc"`, which
does not parse as an integer, `getServerPID` returns `NaN` — not
`null` — and emits no removal of the lock file.  In the source,
`parseInt` never throws, so the `catch` branch that would remove the
file and return `null` is unreachable. -/
theorem getServerPID_corrupt_nan :
    getServerPID (ReadResult.content "abc") =
      (Except.ok (some JsNum.nan), []) := rfl

/-- CLAIM C9: a file-not-found (`ENOENT`) error while reading the lock
file yields no owner (`null`) and no error; every other filesystem read
error propagates unmodified to the caller of `getServerPID`. -/
theorem getServerPID_read_errors (e : String) :
    getServerPID ReadResult.enoent = (Except.ok none, []) ∧
    getServerPID (ReadResult.otherError e) = (Except.error e, []) :=
  ⟨rfl, rfl⟩

/-- CLAIM C2: when the persisted owner identifier parses to the calling
process's own identifier, `checkAlive` returns it at once and emits no
events at all — in particular zero `getVersion` queries and no probe. -/
theorem checkAlive_self_immediate (env : CAEnv) (s : String)
    (hread : env.readRes = ReadResult.content s)
    (hparse : parseIntJS s = JsNum.int env.selfPid) :
    checkAlive env = (Except.ok (some (JsNum.int env.selfPid)), []) := by
  unfold checkAlive
  rw [hread]
  simp [getServerPID, hparse, jsStrictEqNum]

/-- Witness for C2 at a concrete input: lock file `"123"`, own
identifier `123`, a dead-process oracle and a failing query on offer —
none of which are consulted. -/
theorem checkAlive_self_immediate_witness :
    checkAlive ⟨123, ReadResult.content "123", fun _ => false, "v",
        [QueryResult.err "x"]⟩ =
      (Except.ok (some (JsNum.int 123)), []) :=
  checkAlive_self_immediate _ "123" rfl (by decide)

/-- CLAIM C3: a persisted owner distinct from the caller that the
liveness oracle reports alive and whose version is confirmed within the
budget (some failures, then a successful query returning the expected
version) is returned by `checkAlive`; the emitted events are exactly
the version queries — no kill, no lock-file removal, no write. -/
theorem checkAlive_live_compatible (env : CAEnv) (p : Int) (s : String)
    (es rest : List QueryResult)
    (hread : env.readRes = ReadResult.content s)
    (hparse : parseIntJS s = JsNum.int p)
    (hnotself : p ≠ env.selfPid)
    (halive : env.alive p = true)
    (hq : env.queries = es ++ QueryResult.ok env.serverVersion :: rest)
    (herrs : es.all QueryResult.isErr = true) :
    checkAlive env =
      (Except.ok (some (JsNum.int p)),
        List.replicate (es.length + 1) Ev.query) := by
  unfold checkAlive
  rw [hread]
  simp only [getServerPID, hparse]
  have hne : (p == env.selfPid) = false := by
    simpa using hnotself
  simp [jsStrictEqNum, hne, isRunningJs, halive, hq,
    isSameVersion_errs_then_ok env.serverVersion es rest herrs]

/-- Witness for C3 at a concrete input: owner `2`, caller `1`, one
failed query then a confirming one; the owner is returned and the
trace holds the two queries only. -/
theorem checkAlive_live_compatible_witness :
    checkAlive ⟨1, ReadResult.content "2", fun _ => true, "v",
        [QueryResult.err "e", QueryResult.ok "v"]⟩ =
      (Except.ok (some (JsNum.int 2)), [Ev.query, Ev.query]) :=
  checkAlive_live_compatible _ 2 "2" [QueryResult.err "e"] [] rfl
    (by decide) (by decide) rfl rfl (by decide)

/-- CLAIM C4: a persisted owner distinct from the caller that is alive
but whose version is never confirmed within the budget (every available
query fails or reports a different version) is killed; the lock file is
removed and `checkAlive` reports no owner. -/
theorem checkAlive_version_failed (env : CAEnv) (p : Int) (s : String)
    (hread : env.readRes = ReadResult.content s)
    (hparse : parseIntJS s = JsNum.int p)
    (hnotself : p ≠ env.selfPid)
    (halive : env.alive p = true)
    (hq : env.queries.all (notConfirming env.serverVersion) = true) :
    checkAlive env =
      (Except.ok none,
        List.replicate (isSameVersion env.serverVersion env.queries).2
            Ev.query ++
          [Ev.kill (JsNum.int p), Ev.removeLock]) := by
  unfold checkAlive
  rw [hread]
  simp only [getServerPID, hparse]
  have hne : (p == env.selfPid) = false := by
    simpa using hnotself
  simp [jsStrictEqNum, hne, isRunningJs, halive,
    isSameVersion_never_confirmed env.serverVersion env.queries hq]

/-- Witness for C4 at a concrete input: owner `2`, caller `1`, the only
successful query reports version `"w"` instead of `"v"`; the owner is
killed, the lock file removed, and no owner reported. -/
theorem checkAlive_version_failed_witness :
    checkAlive ⟨1, ReadResult.content "2", fun _ => true, "v",
        [QueryResult.ok "w", QueryResult.err "e"]⟩ =
      (Except.ok none,
        [Ev.query, Ev.kill (JsNum.int 2), Ev.removeLock]) :=
  checkAlive_version_failed _ 2 "2" rfl (by decide) (by decide) rfl
    (by decide)

/-- Helper: a replicated list satisfies any test its element does. -/
theorem all_replicate {α : Type} (n : Nat) (a : α) (f : α → Bool)
    (h : f a = true) : (List.replicate n a).all f = true := by
  induction n with
  | zero => rfl
  | succ n ih => simp [List.replicate, ih, h]

/-- Helper: `all` is monotone under pointwise implication. -/
theorem all_imp {α : Type} (l : List α) (f g : α → Bool)
    (h : ∀ a, f a = true → g a = true) (hl : l.all f = true) :
    l.all g = true := by
  induction l with
  | nil => rfl
  | cons a l ih =>
    simp only [List.all_cons, Bool.and_eq_true] at hl ⊢
    exact ⟨h a hl.1, ih hl.2⟩

/-- Helper: `checkAlive` emits only version queries, kills and
lock-file removals — never a spawn, an `onStart` call or a lock-file
write. -/
theorem checkAlive_events (env : CAEnv) :
    ((checkAlive env).2).all Ev.isCheckAliveEv = true := by
  unfold checkAlive
  cases hr : getServerPID env.readRes with
  | mk r tr =>
    have htr : tr = [] := by
      cases h : env.readRes <;> rw [h] at hr <;>
        simp [getServerPID] at hr <;> exact hr.2
    subst htr
    cases r with
    | error e => simp
    | ok pidOpt =>
      cases pidOpt with
      | none => simp
      | some pid =>
        simp only
        split
        · simp
        · split
          · split
            · simpa using all_replicate _ Ev.query _ rfl
            · simp only [List.nil_append, List.all_append]
              simp [all_replicate _ Ev.query Ev.isCheckAliveEv rfl,
                Ev.isCheckAliveEv]
          · simp [Ev.isCheckAliveEv]

/-- Helper: the reachability loop emits only probe events, a fixed
number of them. -/
theorem waitReachableGo_trace (last : Option String)
    (ps : List ProbeResult) :
    ∃ k, (waitReachableGo last ps).2 = List.replicate k Ev.probe := by
  induction ps generalizing last with
  | nil => exact ⟨0, rfl⟩
  | cons p ps ih =>
    cases p with
    | ok => exact ⟨1, rfl⟩
    | err e =>
      obtain ⟨k, hk⟩ := ih (some e)
      exact ⟨k + 1, by simp [waitReachableGo, hk, List.replicate]⟩

/-- Helper: when every probe in the budget fails, the loop ends with
the last error thrown, whatever error was remembered on entry. -/
theorem waitReachableGo_all_err (es : List ProbeResult) (e : String)
    (h : es.all ProbeResult.isErr = true) (last : Option String) :
    (waitReachableGo last (es ++ [ProbeResult.err e])).1 =
      Except.error e := by
  induction es generalizing last with
  | nil => rfl
  | cons p es ih =>
    cases p with
    | ok => simp [ProbeResult.isErr] at h
    | err e1 =>
      simp only [List.all_cons, Bool.and_eq_true] at h
      simpa [waitReachableGo] using ih h.2 (some e1)

/-- Helper: failures before a successful probe are swallowed and the
loop returns success. -/
theorem waitReachableGo_errs_then_ok (es rest : List ProbeResult)
    (h : es.all ProbeResult.isErr = true) (last : Option String) :
    (waitReachableGo last (es ++ ProbeResult.ok :: rest)).1 =
      Except.ok () := by
  induction es generalizing last with
  | nil => rfl
  | cons p es ih =>
    cases p with
    | ok => simp [ProbeResult.isErr] at h
    | err e1 =>
      simp only [List.all_cons, Bool.and_eq_true] at h
      simpa [waitReachableGo] using ih h.2 (some e1)

/-- CLAIM C5: whenever `checkAlive` reports a valid owner, `start`
returns that owner with `started := false` and its event trace is
exactly `checkAlive`'s — which contains no spawn, so no process is
launched and repeated calls stay idempotent. -/
theorem start_existing_owner (env : CAEnv) (binary : Binary)
    (hasOnStart : Bool) (spawnPid : Int) (probes : List ProbeResult)
    (p : JsNum) (tr : List Ev)
    (h : checkAlive env = (Except.ok (some p), tr)) :
    start env binary hasOnStart spawnPid probes =
      (Except.ok ⟨p, false⟩, tr) ∧
    tr.all (fun e => !(Ev.isSpawn e)) = true := by
  constructor
  · unfold start
    rw [h]
  · have htr : (checkAlive env).2 = tr := by rw [h]
    have := checkAlive_events env
    rw [htr] at this
    refine all_imp tr Ev.isCheckAliveEv _ ?_ this
    intro a ha
    cases a <;> simp_all [Ev.isCheckAliveEv, Ev.isSpawn]

/-- Witness for C5 at a concrete input: the lock file names the caller
itself, so `start` returns `started := false` with an empty trace. -/
theorem start_existing_owner_witness :
    start ⟨1, ReadResult.content "1", fun _ => false, "v", []⟩
        ⟨"neo-one", ["arg"]⟩ true 99 [] =
      (Except.ok ⟨JsNum.int 1, false⟩, []) ∧
    ([] : List Ev).all (fun e => !(Ev.isSpawn e)) = true :=
  start_existing_owner ⟨1, ReadResult.content "1", fun _ => false, "v", []⟩
    ⟨"neo-one", ["arg"]⟩ true 99 [] (JsNum.int 1) [] rfl

/-- CLAIM C6: when `checkAlive` reports no owner and the reachability
wait succeeds, `start` calls `onStart` exactly once when supplied (and
never otherwise), spawns exactly once — detached, with `start server`
appended to the binary's arguments — and returns the launcher's
identifier with `started := true`; the preceding `checkAlive` trace
contains neither spawns nor `onStart` calls. -/
theorem start_spawns_once (env : CAEnv) (binary : Binary)
    (hasOnStart : Bool) (spawnPid : Int) (probes : List ProbeResult)
    (tr : List Ev)
    (hca : checkAlive env = (Except.ok none, tr))
    (hreach : (waitReachable probes).1 = Except.ok ()) :
    (∃ k, start env binary hasOnStart spawnPid probes =
      (Except.ok ⟨JsNum.int spawnPid, true⟩,
        tr ++ (if hasOnStart then [Ev.onStart] else []) ++
          [Ev.spawn binary.cmd (binary.firstArgs ++ ["start", "server"])
            true] ++
          List.replicate k Ev.probe)) ∧
    tr.all (fun e => !(Ev.isSpawn e) && !(Ev.isOnStart e)) = true := by
  constructor
  · obtain ⟨k, hk⟩ := waitReachableGo_trace none probes
    refine ⟨k, ?_⟩
    unfold start
    rw [hca]
    cases hwp : waitReachable probes with
    | mk r ptr =>
      have hr : r = Except.ok () := by
        have := hreach
        rw [hwp] at this
        exact this
      have hptr : ptr = List.replicate k Ev.probe := by
        have := hk
        unfold waitReachable at hwp
        rw [hwp] at this
        exact this
      subst hr hptr
      simp
  · have htr : (checkAlive env).2 = tr := by rw [hca]
    have := checkAlive_events env
    rw [htr] at this
    refine all_imp tr Ev.isCheckAliveEv _ ?_ this
    intro a ha
    cases a <;> simp_all [Ev.isCheckAliveEv, Ev.isSpawn, Ev.isOnStart]

/-- Witness for C6 at a concrete input: no lock file, one successful
probe; `start` calls `onStart`, spawns `neo-one arg start server`
detached, and returns pid `99` with `started := true`. -/
theorem start_spawns_once_witness :
    (∃ k, start ⟨1, ReadResult.enoent, fun _ => false, "v", []⟩
        ⟨"neo-one", ["arg"]⟩ true 99 [ProbeResult.ok] =
      (Except.ok ⟨JsNum.int 99, true⟩,
        ([] : List Ev) ++ (if true then [Ev.onStart] else []) ++
          [Ev.spawn "neo-one" (["arg"] ++ ["start", "server"]) true] ++
          List.replicate k Ev.probe)) ∧
    ([] : List Ev).all (fun e => !(Ev.isSpawn e) && !(Ev.isOnStart e)) =
      true :=
  start_spawns_once ⟨1, ReadResult.enoent, fun _ => false, "v", []⟩
    ⟨"neo-one", ["arg"]⟩ true 99 [ProbeResult.ok] [] rfl rfl

/-- CLAIM C7: when `checkAlive` found no owner and every probe fails
throughout the 30-second budget, `start` fails with the last observed
probe error — not a generic timeout; and probe failures followed by a
success within the budget are swallowed, `start` then succeeding. -/
theorem start_reachability_error (env : CAEnv) (binary : Binary)
    (hasOnStart : Bool) (spawnPid : Int) (tr : List Ev)
    (es : List ProbeResult) (e : String)
    (hca : checkAlive env = (Except.ok none, tr))
    (herrs : es.all ProbeResult.isErr = true) :
    (start env binary hasOnStart spawnPid
        (es ++ [ProbeResult.err e])).1 = Except.error e ∧
    ∀ rest, (start env binary hasOnStart spawnPid
        (es ++ ProbeResult.ok :: rest)).1 =
      Except.ok ⟨JsNum.int spawnPid, true⟩ := by
  constructor
  · unfold start
    rw [hca]
    cases hwp : waitReachable (es ++ [ProbeResult.err e]) with
    | mk r ptr =>
      have hr : r = Except.error e := by
        have := waitReachableGo_all_err es e herrs none
        unfold waitReachable at hwp
        rw [hwp] at this
        exact this
      subst hr
      simp
  · intro rest
    unfold start
    rw [hca]
    cases hwp : waitReachable (es ++ ProbeResult.ok :: rest) with
    | mk r ptr =>
      have hr : r = Except.ok () := by
        have := waitReachableGo_errs_then_ok es rest herrs none
        unfold waitReachable at hwp
        rw [hwp] at this
        exact this
      subst hr
      simp

/-- Witness for C7 at a concrete input: probes fail with `"a"` then
`"b"`; `start` fails with `"b"`, the last observed error. -/
theorem start_reachability_error_witness :
    (start ⟨1, ReadResult.enoent, fun _ => false, "v", []⟩
        ⟨"neo-one", ["arg"]⟩ false 99
        [ProbeResult.err "a", ProbeResult.err "b"]).1 =
      Except.error "b" :=
  (start_reachability_error ⟨1, ReadResult.enoent, fun _ => false, "v", []⟩
    ⟨"neo-one", ["arg"]⟩ false 99 [] [ProbeResult.err "a"] "b"
    rfl (by decide)).1

/-- CLAIM C8: no execution of `start` — successful or failing — emits a
lock-file write event.  `writePID` is the sole producer of
`Ev.writeLock` events in this development, so `start` never calls it:
persisting the new owner is solely the caller's responsibility. -/
theorem start_no_lock_write (env : CAEnv) (binary : Binary)
    (hasOnStart : Bool) (spawnPid : Int) (probes : List ProbeResult) :
    ((start env binary hasOnStart spawnPid probes).2).all
      (fun e => !(Ev.isWriteLock e)) = true := by
  have hnw : ∀ tr : List Ev, tr.all Ev.isCheckAliveEv = true →
      tr.all (fun e => !(Ev.isWriteLock e)) = true := by
    intro tr h
    refine all_imp tr Ev.isCheckAliveEv _ ?_ h
    intro a ha
    cases a <;> simp_all [Ev.isCheckAliveEv, Ev.isWriteLock]
  unfold start
  cases hca : checkAlive env with
  | mk r tr =>
    have htr : tr.all (fun e => !(Ev.isWriteLock e)) = true := by
      have := checkAlive_events env
      rw [hca] at this
      exact hnw tr this
    cases r with
    | error e => simpa using htr
    | ok pidOpt =>
      cases pidOpt with
      | some p => simpa using htr
      | none =>
        cases hwp : waitReachable probes with
        | mk wr ptr =>
          have hptr : ptr.all (fun e => !(Ev.isWriteLock e)) = true := by
            obtain ⟨k, hk⟩ := waitReachableGo_trace none probes
            unfold waitReachable at hwp
            rw [hwp] at hk
            have hptr2 : ptr = List.replicate k Ev.probe := hk
            rw [hptr2]
            exact all_replicate _ Ev.probe _ rfl
          cases wr with
          | error e =>
            simp only [List.all_append, Bool.and_eq_true]
            refine ⟨⟨⟨htr, ?_⟩, by simp [Ev.isWriteLock]⟩, hptr⟩
            cases hasOnStart <;> simp [Ev.isWriteLock]
          | ok u =>
            cases u
            simp only [List.all_append, Bool.and_eq_true]
            refine ⟨⟨⟨htr, ?_⟩, by simp [Ev.isWriteLock]⟩, hptr⟩
            cases hasOnStart <;> simp [Ev.isWriteLock]

/-- Helper: a decimal digit is not a JavaScript whitespace character. -/
theorem digit_not_space (c : Char) (h : c.isDigit = true) :
    isJsSpace c = false := by
  by_contra hc
  rw [Bool.not_eq_false] at hc
  unfold isJsSpace at hc
  simp only [Bool.or_eq_true, beq_iff_eq] at hc
  rcases hc with ((h1 | h1) | h1) | h1 <;> subst h1 <;>
    exact absurd h (by decide)

/-- Helper: `takeWhile` passes over a block that satisfies the test
wholesale. -/
theorem takeWhile_append_all (p : Char → Bool) (ds l : List Char)
    (h : ds.all p = true) :
    (ds ++ l).takeWhile p = ds ++ l.takeWhile p := by
  induction ds with
  | nil => simp
  | cons a ds ih =>
    simp only [List.all_cons, Bool.and_eq_true] at h
    simp [List.takeWhile, h.1, ih h.2]

/-- CLAIM C10: `getServerPID` performs a lenient base-10 leading-digits
parse: content made of a nonempty decimal digit run followed by
arbitrary non-digit-initial trailing characters yields the leading
integer, and the file is left in place (no removal event). -/
theorem getServerPID_leading_digits (ds : List Char) (t : String)
    (hne : ds ≠ [])
    (hdigits : ds.all Char.isDigit = true)
    (hhead : headNotDigit t = true) :
    getServerPID (ReadResult.content (String.mk (ds ++ t.toList))) =
      (Except.ok (some (JsNum.int ((digitsVal ds : Int)))), []) := by
  suffices hp : parseIntJS (String.mk (ds ++ t.toList)) =
      JsNum.int ((digitsVal ds : Int)) by
    have hp2 : parseIntJS (String.mk (ds ++ t.data)) =
        JsNum.int ((digitsVal ds : Int)) := hp
    simp [getServerPID, hp2]
  obtain ⟨d, ds', rfl⟩ : ∃ d ds', ds = d :: ds' := by
    cases ds with
    | nil => exact absurd rfl hne
    | cons d ds' => exact ⟨d, ds', rfl⟩
  simp only [List.all_cons, Bool.and_eq_true] at hdigits
  obtain ⟨hd, hds'⟩ := hdigits
  have hscrut : (String.mk ((d :: ds') ++ t.toList)).toList.dropWhile
      isJsSpace = d :: (ds' ++ t.toList) := by
    show ((d :: ds') ++ t.toList).dropWhile isJsSpace =
      d :: (ds' ++ t.toList)
    simp [List.dropWhile, digit_not_space d hd]
  have htk : ((d :: ds') ++ t.toList).takeWhile Char.isDigit =
      d :: ds' := by
    rw [takeWhile_append_all Char.isDigit (d :: ds') t.toList
      (by simp [hd, hds'])]
    have ht0 : t.toList.takeWhile Char.isDigit = [] := by
      unfold headNotDigit at hhead
      cases ht : t.toList with
      | nil => simp
      | cons c cs =>
        rw [ht] at hhead
        simp only [Bool.not_eq_true'] at hhead
        simp [List.takeWhile, hhead]
    rw [ht0, List.append_nil]
  unfold parseIntJS
  rw [hscrut]
  split
  · rename_i rest heq
    simp only [List.cons.injEq] at heq
    exact absurd hd (by rw [heq.1]; decide)
  · rename_i rest heq
    simp only [List.cons.injEq] at heq
    exact absurd hd (by rw [heq.1]; decide)
  · simp only [parseDigits]
    rw [List.cons_append] at htk
    rw [htk]
    simp

/-- Witness for C10 at a concrete input: content `"123abc"` yields the
owner identifier `123` with the file left in place. -/
theorem getServerPID_leading_digits_witness :
    getServerPID (ReadResult.content (String.mk
        (['1', '2', '3'] ++ "abc".toList))) =
      (Except.ok (some (JsNum.int 123)), []) :=
  getServerPID_leading_digits ['1', '2', '3'] "abc" (by decide)
    (by decide) (by decide)

end ServerManager
